import Mathlib

/-
Shallow embedding of the AMO RSS generator (src/generate_amo_rss_Version2.py)
and proofs checking the natural-language specification against it.

Conventions of the embedding:
  * Python dictionaries coming from the JSON API are modelled by structures
    whose fields are Option-valued (a missing key is none); locale-keyed
    fields are a sum of a plain string, an ordered association list, or
    missing, mirroring the dynamic shapes the script inspects.
  * Python truthiness on strings and integers is modelled explicitly:
    None, the empty string and 0 are falsy.
  * The standard-library timestamp parsers (datetime.fromisoformat and
    datetime.strptime) are not repository code; they enter the model as
    explicit function parameters of type String to Option PyDatetime, a
    UTC instant in seconds together with the tzinfo presence flag
    (fromisoformat yields offset-aware values on offset-carrying text such
    as the Z-replaced candidates; strptime with the fallback pattern and
    utcnow yield naive values).  All repository-level logic around them
    (candidate order, the Z replacement, the fallback chain, and the
    aware-versus-naive TypeError of the filter comparison) is embedded.
  * The HTTP layer is modelled by a list of page responses handed to the
    fetch loops; a response is either a transport failure (a raised
    exception in requests.get) or a status code with a parsed body.
-/

namespace Amo


/-- Python truthiness of an optional string value: None and the empty string
are falsy, any other string is truthy. -/
def truthyStr : Option String → Bool
  | none => false
  | some s => decide (s ≠ "")

/-- Python truthiness of an optional integer value: None and 0 are falsy. -/
def truthyInt : Option Int → Bool
  | none => false
  | some i => decide (i ≠ 0)

/-- Python expression x or y for an optional string x (such as the result of
dict.get): falsy values (None, empty string) fall through to y. -/
def pyOrS : Option String → String → String
  | none, y => y
  | some s, y => if s = "" then y else s

/-- Python dict.get on an ordered association list (Python dicts preserve
insertion order). -/
def dictGet (m : List (String × String)) (k : String) : Option String :=
  (m.find? (fun kv => kv.1 == k)).map (fun kv => kv.2)

/-- Python next(iter(m.values()), default empty): the first stored value of
the mapping, or the empty string when the mapping is empty. -/
def firstValue (m : List (String × String)) : String :=
  match m.head? with
  | some kv => kv.2
  | none => ""

/-- Dynamic shape of a locale-keyed field: a plain string, a locale-keyed
mapping (ordered association list), or an absent field. -/
inductive LocVal where
  | str (s : String)
  | locmap (entries : List (String × String))
  | missing

deriving instance DecidableEq for LocVal

/-- Embedding of _best_locale_value (source lines 10-13): on a dict, the
chain m.get(en-US) or m.get(en) or next(iter(m.values()), empty); on a
non-dict, the value itself with None defaulted to the empty string. -/
def _best_locale_value : LocVal → String
  | LocVal.locmap m => pyOrS (dictGet m ("en-US")) (pyOrS (dictGet m ("en")) (firstValue m))
  | LocVal.str s => s
  | LocVal.missing => ""

/-- Fields of current_version consumed by the script: version,
created, and file.created (none when the nested file object or its
created key is absent). -/
structure CurrentVersion where
  version : Option String
  created : Option String
  file_created : Option String

deriving instance DecidableEq for CurrentVersion

/-- Catalog record fields consumed by the claims under verification.  Fields
of the JSON record that no claim touches (summary, icons, authors, user
counts, rating, categories, permissions, homepage) are omitted from the
embedding. -/
structure Addon where
  name : LocVal
  slug : Option String
  id : Option Int
  current_version : Option CurrentVersion
  last_updated : Option String
  created : Option String

deriving instance DecidableEq for Addon

/-- Embedding of title_name (source line 228). -/
def resolvedName (a : Addon) : String := _best_locale_value a.name

/-- Embedding of version (source line 229): addon.get(current_version,
empty dict).get(version, empty string). -/
def versionOf (a : Addon) : String :=
  match a.current_version with
  | some cv => cv.version.getD ("")
  | none => ""

/-- Embedding of the item title (source line 230): the f-string
interpolation of name, a space, the letter v and the version when either
part is truthy, the literal Unknown otherwise. -/
def renderTitle (a : Addon) : String :=
  if resolvedName a ≠ "" ∨ versionOf a ≠ "" then resolvedName a ++ " v" ++ versionOf a
  else "Unknown"

/-- Embedding of header_html (source line 330): the description header line,
which appends the version suffix only when the version is truthy. -/
def headerHtml (a : Addon) : String :=
  "<div><strong>" ++ resolvedName a ++ (if versionOf a ≠ "" then " v" ++ versionOf a else "")
    ++ "</strong></div>"

/-- Embedding of the GUID text (source line 415): addon.get(slug) or
str(addon.get(id) or empty string). -/
def guidText (a : Addon) : String :=
  let idStr : String :=
    match a.id with
    | some i => if i ≠ 0 then toString i else ""
    | none => ""
  match a.slug with
  | some s => if s ≠ "" then s else idStr
  | none => idStr

/-- Rendered feed item restricted to the fields the claims talk about. -/
structure FeedItem where
  title : String
  header : String
  guid : String

deriving instance DecidableEq for FeedItem

/-- Rendering of one addon into a feed item (source lines 224-417, the
claim-relevant fields). One item element is produced per record,
unconditionally. -/
def renderItem (a : Addon) : FeedItem :=
  ⟨renderTitle a, headerHtml a, guidText a⟩

/-- Rendering of the whole record sequence: the loop over addons at source
line 224 appends one item per record. -/
def renderItems (l : List Addon) : List FeedItem := l.map renderItem

/-- Specification-side reading for the amended claim C5: a locale entry
counts only when present with a non-empty value. -/
def nonEmptyEntry (m : List (String × String)) (k : String) : Option String :=
  match dictGet m k with
  | some v => if v = "" then none else some v
  | none => none

/-- Specification-side restatement of locale resolution as amended for
claim C5: the en-US value when present and non-empty, else the en value
when present and non-empty, else the first stored value, else empty. -/
def bestLocaleSpecValue (m : List (String × String)) : String :=
  match nonEmptyEntry m ("en-US") with
  | some v => v
  | none =>
    match nonEmptyEntry m ("en") with
    | some v => v
    | none =>
      match m.head? with
      | some kv => kv.2
      | none => ""

/-- C6 witness: the all-absent record. -/
def addonEmpty : Addon := ⟨LocVal.missing, none, none, none, none, none⟩

/-- Specification-side restatement of the GUID rule as amended for claim C9:
the slug when present and non-empty, else the decimal rendering of the
identifier when present and non-zero, else the empty string. -/
def guidSpecValue (a : Addon) : String :=
  if truthyStr a.slug then a.slug.getD ("")
  else if truthyInt a.id then toString (a.id.getD 0)
  else ""

/-- C9 counterexample: a record whose slug key is present but empty, with
identifier 5. The claim predicts the GUID equals the present slug (the
empty string); the code renders the stringified identifier instead. -/
def addonEmptySlug : Addon := ⟨LocVal.missing, some (""), some 5, none, none, none⟩

/-- C10 witness: a record named Foo with no version information. -/
def addonFoo : Addon := ⟨LocVal.str ("Foo"), none, none, none, none, none⟩

/-- Python single-character str.replace on the underlying character list:
every occurrence of the target character is replaced by the new string. -/
def replaceCharList (t : Char) (new : List Char) : List Char → List Char
  | [] => []
  | c :: rest =>
    if c = t then new ++ replaceCharList t new rest else c :: replaceCharList t new rest

/-- Python candidate.replace with a single-character target, as used at
source line 187 with the target Z. -/
def pyReplaceChar (t : Char) (new : String) (s : String) : String :=
  String.mk (replaceCharList t new.data s.data)

/-- The four timestamp candidates of _get_created_dt (source lines 179-184),
in source order: current_version.file.created, current_version.created,
last_updated, created. -/
def timestampCandidates (a : Addon) : List (Option String) :=
  [ a.current_version.bind (fun cv => cv.file_created),
    a.current_version.bind (fun cv => cv.created),
    a.last_updated,
    a.created ]

/-- A parsed datetime value as produced by the standard-library parsers: an
instant on one UTC timeline in seconds, together with the tzinfo presence
flag.  fromisoformat yields an offset-aware value (flag true) when the text
carries a UTC offset, as it always does after the Z replacement at source
line 187; strptime with the fallback pattern of line 191 and utcnow yield
naive values (flag false).  Python refuses to order-compare an aware
datetime with a naive one and raises TypeError. -/
structure PyDatetime where
  seconds : Int
  aware : Bool

deriving instance DecidableEq for PyDatetime

/-- One candidate parse attempt (source lines 186-192): fromisoformat on the
candidate with Z replaced by an explicit UTC offset, then the strptime
fallback pattern on the raw candidate.  The two standard-library parsers are
parameters pIso and pStrp of the model. -/
def parseCandidate (pIso pStrp : String → Option PyDatetime) (s : String) :
    Option PyDatetime :=
  match pIso (pyReplaceChar 'Z' ("+00:00") s) with
  | some d => some d
  | none => pStrp s

/-- Candidate loop of _get_created_dt: a falsy candidate is skipped, a
truthy candidate that fails both parses falls through to the next candidate
(the continue at source line 193), and an exhausted list yields None. -/
def _get_created_dt_go (pIso pStrp : String → Option PyDatetime) :
    List (Option String) → Option PyDatetime
  | [] => none
  | c :: rest =>
    match c with
    | some s =>
      if s ≠ "" then
        match parseCandidate pIso pStrp s with
        | some d => some d
        | none => _get_created_dt_go pIso pStrp rest
      else _get_created_dt_go pIso pStrp rest
    | none => _get_created_dt_go pIso pStrp rest

/-- Embedding of _get_created_dt (source lines 177-194). -/
def _get_created_dt (pIso pStrp : String → Option PyDatetime) (a : Addon) :
    Option PyDatetime :=
  _get_created_dt_go pIso pStrp (timestampCandidates a)

/-- Embedding of the cutoff (source line 196): utcnow minus the maximum age
in days, with instants measured in seconds. -/
def cutoffTime (now d : Int) : Int := now - d * 86400

/-- Outcome of the recency-filter stage: the retained records, or the
uncaught TypeError that aborts the whole run before anything is written. -/
inductive FilterResult where
  | ok (records : List Addon)
  | typeError

deriving instance DecidableEq for FilterResult

/-- Embedding of the filter loop (source lines 197-201): a record whose
resolved timestamp is None is kept without any comparison (the
short-circuit or at line 200); otherwise the comparison dt at least cutoff
runs, and because the cutoff built from utcnow at line 196 is always
naive, Python raises an uncaught TypeError as soon as the resolved
timestamp is offset-aware, aborting the loop, discarding everything
filtered so far, and crashing the run at that record. -/
def filterLoop (pIso pStrp : String → Option PyDatetime) (now d : Int) :
    List Addon → FilterResult
  | [] => FilterResult.ok []
  | a :: rest =>
    match _get_created_dt pIso pStrp a with
    | none =>
      match filterLoop pIso pStrp now d rest with
      | FilterResult.ok l => FilterResult.ok (a :: l)
      | FilterResult.typeError => FilterResult.typeError
    | some dt =>
      if dt.aware then FilterResult.typeError
      else if dt.seconds ≥ cutoffTime now d then
        match filterLoop pIso pStrp now d rest with
        | FilterResult.ok l => FilterResult.ok (a :: l)
        | FilterResult.typeError => FilterResult.typeError
      else filterLoop pIso pStrp now d rest

/-- Embedding of the recency-filter stage (source lines 175-202): filtering
runs only when max_days is truthy, otherwise the collected list passes
through unchanged. -/
def recencyFilter (pIso pStrp : String → Option PyDatetime) (now : Int)
    (max_days : Option Int) (recs : List Addon) : FilterResult :=
  if truthyInt max_days then filterLoop pIso pStrp now (max_days.getD 0) recs
  else FilterResult.ok recs

/-- Embedding of the max_days plumbing of _env_or_arg (source lines 455-457):
the command-line value when truthy, else the environment value, and the
result normalized to None when non-positive. -/
def envOrArgMaxDays (argMaxDays envMaxDays : Int) : Option Int :=
  let md := if argMaxDays ≠ 0 then argMaxDays else envMaxDays
  if md > 0 then some md else none

/-- Parser that always fails, used to instantiate the parser parameters in
witnesses. -/
def parserNone : String → Option PyDatetime := fun _ => none

/-- Record whose current_version.created is a Z-suffixed ISO timestamp, the
format the AMO API serves and the format the Z replacement at source line
187 exists to handle. -/
def addonAware : Addon :=
  ⟨LocVal.missing, none, none, some ⟨none, some ("2024-01-01T00:00:00Z"), none⟩,
   none, none⟩

/-- Concrete instance of the fromisoformat parameter on the Z-replaced
candidate of addonAware: as in Python, the explicit +00:00 offset makes the
parsed value offset-aware. -/
def parserAwareUTC : String → Option PyDatetime :=
  fun s => if s = "2024-01-01T00:00:00+00:00" then some ⟨1704067200, true⟩ else none

/-- One answer of the HTTP layer to one requests.get call: a raised
transport exception (connection error, timeout), or a response with its
status code, its parsed results list, and whether its JSON body carries a
next link. -/
inductive PageResp where
  | transportError
  | response (status : Int) (results : List Addon) (next : Bool)

deriving instance DecidableEq for PageResp

/-- The results carried by a response (empty for a transport failure). -/
def resultsOf : PageResp → List Addon
  | PageResp.transportError => []
  | PageResp.response _ r _ => r

/-- The stop test at source lines 99 and 159: max_items truthy and the
accumulator length at least max_items. -/
def maxReached (max_items : Option Int) (n : Nat) : Bool :=
  match max_items with
  | none => false
  | some m => decide (m ≠ 0) && decide ((n : Int) ≥ m)

/-- Embedding of _fetch_following (source lines 78-109) over the successive
responses of the server: stop on a transport failure, a non-200 status, an
empty results list, a reached item cap, or an absent next link; otherwise
append the page and continue.  An exhausted response list stops the loop
with the accumulator (the server no longer answers). -/
def fetchFollowing (max_items : Option Int) (acc : List Addon) :
    List PageResp → List Addon
  | [] => acc
  | PageResp.transportError :: _ => acc
  | PageResp.response status results next :: rest =>
    if status ≠ 200 then acc
    else if results.length = 0 then acc
    else
      let acc2 := acc ++ results
      if maxReached max_items acc2.length then acc2
      else if next then fetchFollowing max_items acc2 rest
      else acc2

/-- Embedding of the self-driven pagination loop (source lines 129-173):
like the next-link loop, but when a page carries a next link the loop hands
off to _fetch_following and stops, and when a full page carries no next
link the page counter advances (the recursive call); a short page ends the
loop. -/
def selfDrivenFetch (page_size : Int) (max_items : Option Int) (acc : List Addon) :
    List PageResp → List Addon
  | [] => acc
  | PageResp.transportError :: _ => acc
  | PageResp.response status results next :: rest =>
    if status ≠ 200 then acc
    else if results.length = 0 then acc
    else
      let acc2 := acc ++ results
      if maxReached max_items acc2.length then acc2
      else if next then fetchFollowing max_items acc2 rest
      else if (results.length : Int) < page_size then acc2
      else selfDrivenFetch page_size max_items acc2 rest

/-- Page test of the next-link loop hypotheses: a 200 response with a
non-empty results list and a next link. -/
def okPageNext : PageResp → Bool
  | PageResp.transportError => false
  | PageResp.response status results next =>
    decide (status = 200) && decide (results.length ≠ 0) && next

/-- Page test for the self-driven loop to advance its page counter: a 200
response of exactly the page size (hence non-empty for a positive page
size) with no next link. -/
def okFullPageNoNext (page_size : Int) : PageResp → Bool
  | PageResp.transportError => false
  | PageResp.response status results next =>
    decide (status = 200) && decide ((results.length : Int) = page_size) && !next

/-- A response at which the fetch loop stops with an error log: a raised
transport exception or a non-200 status. -/
def isErrorResp : PageResp → Bool
  | PageResp.transportError => true
  | PageResp.response status _ _ => decide (status ≠ 200)

/-- The item cap is not hit at any point while consuming the given pages
starting from an accumulator of the given length. -/
def noCapHit (m : Option Int) : Nat → List PageResp → Bool
  | _, [] => true
  | n, p :: rest =>
    !maxReached m (n + (resultsOf p).length) && noCapHit m (n + (resultsOf p).length) rest

/-- Concatenation of the results of a response list, in order. -/
def flattenResults : List PageResp → List Addon
  | [] => []
  | p :: rest => resultsOf p ++ flattenResults rest

/-- ASCII model of Python ch.isalnum (the catalog type labels handled by
the script are ASCII): decimal digits, uppercase letters, lowercase
letters. -/
def pyIsAlnum (c : Char) : Bool :=
  decide ((48 ≤ c.toNat ∧ c.toNat ≤ 57) ∨ (65 ≤ c.toNat ∧ c.toNat ≤ 90)
    ∨ (97 ≤ c.toNat ∧ c.toNat ≤ 122))

/-- ASCII model of Python str.lower on one character: shift an uppercase
ASCII letter down by 32 codepoints, leave everything else alone. -/
def pyLowerChar (c : Char) : Char :=
  if 65 ≤ c.toNat ∧ c.toNat ≤ 90 then Char.ofNat (c.toNat + 32) else c

/-- ASCII model of Python str.lower. -/
def pyLower (s : String) : String := String.mk (s.data.map pyLowerChar)

/-- Embedding of safe_label (source line 434): keep only alphanumerics,
underscore and hyphen, then lowercase. -/
def sanitizeLabel (s : String) : String :=
  pyLower (String.mk (s.data.filter (fun c => pyIsAlnum c || c == '_' || c == '-')))

/-- Embedding of the type normalization (source lines 111-122) applied to a
truthy amo_type: the lowercased aliases theme and themes map to the API
token statictheme with file label theme; anything else is its own API token
with a trailing s stripped for the file label. -/
def apiAndLabel (amo_type : String) : String × String :=
  let at_ := pyLower amo_type
  if at_ = "theme" ∨ at_ = "themes" then ("statictheme", "theme")
  else (at_, if at_.data.getLast? = some 's' then String.mk at_.data.dropLast else at_)

/-- Python expression x or y on two plain strings (source line 434,
file_label or amo_type). -/
def pyOrStr2 (a b : String) : String := if a = "" then b else a

/-- The type-specific output file name (source lines 434-435). -/
def typeSpecificFileName (amo_type : String) : String :=
  "amo_latest_" ++ sanitizeLabel (pyOrStr2 (apiAndLabel amo_type).2 amo_type) ++ "s.xml"

/-- Embedding of the write policy (source lines 423-437): the combined file
is written exactly when amo_type is falsy, and the type-specific file
exactly when amo_type is truthy. -/
def outputFiles (amo_type : Option String) : List String :=
  (if truthyStr amo_type then [] else ["amo_latest_addons.xml"])
    ++ (match amo_type with
        | some s => if s = "" then [] else [typeSpecificFileName s]
        | none => [])

/-- Uppercase hexadecimal digit for one value below 16. -/
def hexDigitChar (n : Nat) : Char :=
  if n < 10 then Char.ofNat (48 + n) else Char.ofNat (55 + n)

/-- ASCII model of urllib quote_plus on one character: unreserved
characters pass through, a space becomes a plus, anything else is
percent-encoded. -/
def pyQuotePlusChar (c : Char) : List Char :=
  if pyIsAlnum c || c == '_' || c == '.' || c == '-' || c == '~' then [c]
  else if c == ' ' then ['+']
  else ['%', hexDigitChar (c.toNat / 16), hexDigitChar (c.toNat % 16)]

/-- Concatenated expansion of a character list under a character-to-list
map. -/
def flatMapChars (f : Char → List Char) : List Char → List Char
  | [] => []
  | c :: rest => f c ++ flatMapChars f rest

/-- ASCII model of urllib quote_plus. -/
def pyQuotePlus (s : String) : String := String.mk (flatMapChars pyQuotePlusChar s.data)

/-- Python separator.join for the ampersand separator (source line 139). -/
def joinAmps : List String → String
  | [] => ""
  | [s] => s
  | s :: rest => s ++ "&" ++ joinAmps rest

/-- Embedding of the self-driven request URL construction (source lines
128-139): the fixed endpoint with sort, page size, page number, and the
optional type and query parameters, each URL-encoded. -/
def buildSearchUrl (page_size page : Int) (api_type q : Option String) : String :=
  let params := ["sort=updated", "page_size=" ++ toString page_size, "page=" ++ toString page]
      ++ (match api_type with
          | some t => if t = "" then [] else ["type=" ++ pyQuotePlus t]
          | none => [])
      ++ (match q with
          | some qq => if qq = "" then [] else ["q=" ++ pyQuotePlus qq]
          | none => [])
  "https://addons.mozilla.org/api/v5/addons/search/" ++ "?" ++ joinAmps params

/-- Character class named by claim C4 for the sanitized label: lowercase
alphanumeric (alphanumeric and not an uppercase letter), underscore, or
hyphen. -/
def lowerAllowedChar (c : Char) : Bool :=
  (pyIsAlnum c && decide (¬(65 ≤ c.toNat ∧ c.toNat ≤ 90))) || c == '_' || c == '-'

/-- Observable outcome of one run: the rendered items of the feed, and the
names of the files written. -/
structure RunOutput where
  items : List FeedItem
  files : List String

deriving instance DecidableEq for RunOutput

/-- Observable outcome of one whole run: the rendered feed and the files
written, or the crash of the run on the uncaught filter TypeError (the
writes at source lines 423-437 come after the filter, so a crashed run
writes nothing). -/
inductive RunResult where
  | wrote (output : RunOutput)
  | typeError

deriving instance DecidableEq for RunResult

/-- Embedding of a generate_rss_feed run in explicit-search-URL mode
(source lines 125-126, then 175-437): fetch following next links, filter by
recency, render one item per retained record, and write the output files
according to the amo_type policy; a filter crash aborts the run. -/
def runWithSearchUrl (pIso pStrp : String → Option PyDatetime) (now : Int)
    (max_items max_days : Option Int) (amo_type : Option String)
    (responses : List PageResp) : RunResult :=
  match recencyFilter pIso pStrp now max_days (fetchFollowing max_items [] responses) with
  | FilterResult.ok l => RunResult.wrote ⟨renderItems l, outputFiles amo_type⟩
  | FilterResult.typeError => RunResult.typeError

/-- Embedding of a generate_rss_feed run in self-driven mode (source lines
127-173, then 175-437): the page-counter loop collects, then the same
filter, render and write stages follow; a filter crash aborts the run. -/
def runSelfDriven (pIso pStrp : String → Option PyDatetime) (now : Int)
    (page_size : Int) (max_items max_days : Option Int) (amo_type : Option String)
    (responses : List PageResp) : RunResult :=
  match recencyFilter pIso pStrp now max_days
      (selfDrivenFetch page_size max_items [] responses) with
  | FilterResult.ok l => RunResult.wrote ⟨renderItems l, outputFiles amo_type⟩
  | FilterResult.typeError => RunResult.typeError

/-- C5 counterexample: a mapping whose en-US key is present but maps to the
empty string. The claim predicts the en-US value (the empty string); the
code falls through to the en value. -/
theorem c5_counterexample :
    dictGet [("en-US", ""), ("en", "hello")] ("en-US") = some ("")
    ∧ _best_locale_value (LocVal.locmap [("en-US", ""), ("en", "hello")]) = "hello"
    ∧ ("hello" : String) ≠ "" := by
  refine ⟨by decide, by decide, by decide⟩

/-- C5 (amended): locale resolution returns the en-US value when present and
non-empty, else the en value when present and non-empty, else the first
stored value of the mapping, and the empty string on an empty mapping; it is
a total function, so it never raises. -/
theorem c5_best_locale_resolution :
    (∀ m : List (String × String),
      _best_locale_value (LocVal.locmap m) = bestLocaleSpecValue m)
    ∧ _best_locale_value (LocVal.locmap []) = "" := by
  constructor
  · intro m
    cases h1 : dictGet m ("en-US") with
    | some v =>
      by_cases hv : v = "" <;>
        cases h2 : dictGet m ("en") with
      | some w =>
        by_cases hw : w = "" <;>
          simp [_best_locale_value, bestLocaleSpecValue, nonEmptyEntry, pyOrS,
            firstValue, h1, h2, hv, hw]
      | none =>
        simp [_best_locale_value, bestLocaleSpecValue, nonEmptyEntry, pyOrS,
          firstValue, h1, h2, hv]
    | none =>
      cases h2 : dictGet m ("en") with
      | some w =>
        by_cases hw : w = "" <;>
          simp [_best_locale_value, bestLocaleSpecValue, nonEmptyEntry, pyOrS,
            firstValue, h1, h2, hw]
      | none =>
        simp [_best_locale_value, bestLocaleSpecValue, nonEmptyEntry, pyOrS,
          firstValue, h1, h2]
  · decide

/-- C6: a record lacking both a resolved name and a current_version.version
renders the title Unknown (source line 230). -/
theorem c6_unknown_title (a : Addon) (hname : resolvedName a = "")
    (hver : versionOf a = "") : renderTitle a = "Unknown" := by
  simp [renderTitle, hname, hver]

/-- C6 witness: evaluation at the all-absent record. -/
theorem c6_unknown_title_witness :
    resolvedName addonEmpty = "" ∧ versionOf addonEmpty = ""
    ∧ renderTitle addonEmpty = "Unknown" :=
  ⟨by decide, by decide, c6_unknown_title addonEmpty (by decide) (by decide)⟩

/-- C9 counterexample: with slug present (but empty) the emitted GUID is not
the slug. -/
theorem c9_counterexample :
    addonEmptySlug.slug = some ("") ∧ (renderItem addonEmptySlug).guid = "5"
    ∧ (renderItem addonEmptySlug).guid ≠ addonEmptySlug.slug.getD ("") := by
  refine ⟨by decide, by decide, by decide⟩

/-- C9 (amended): the GUID is the slug when present and non-empty, else the
stringified identifier when present and non-zero, else empty; and exactly
one item element is emitted per record in every case, even when the GUID is
empty. -/
theorem c9_guid_and_item_emission :
    (∀ a : Addon, (renderItem a).guid = guidSpecValue a)
    ∧ ∀ recs : List Addon, (renderItems recs).length = recs.length := by
  constructor
  · intro a
    cases hs : a.slug with
    | some s =>
      by_cases hse : s = "" <;>
        cases hi : a.id with
      | some i =>
        by_cases hiz : i = 0 <;>
          simp [renderItem, guidText, guidSpecValue, truthyStr, truthyInt, hs, hi, hse, hiz]
      | none =>
        simp [renderItem, guidText, guidSpecValue, truthyStr, truthyInt, hs, hi, hse]
    | none =>
      cases hi : a.id with
      | some i =>
        by_cases hiz : i = 0 <;>
          simp [renderItem, guidText, guidSpecValue, truthyStr, truthyInt, hs, hi, hiz]
      | none =>
        simp [renderItem, guidText, guidSpecValue, truthyStr, truthyInt, hs, hi]
  · intro recs
    simp [renderItems]

/-- C10: with a non-empty resolved name and no version, the title carries a
dangling v marker while the description header line has no version suffix
at all. -/
theorem c10_dangling_version_suffix (a : Addon) (hname : resolvedName a ≠ "")
    (hver : versionOf a = "") :
    renderTitle a = resolvedName a ++ " v"
    ∧ headerHtml a = "<div><strong>" ++ resolvedName a ++ "</strong></div>" := by
  constructor
  · simp [renderTitle, hname, hver]
  · simp [headerHtml, hver]

/-- C10 witness: evaluation at the record named Foo. -/
theorem c10_dangling_version_suffix_witness :
    resolvedName addonFoo ≠ "" ∧ versionOf addonFoo = ""
    ∧ renderTitle addonFoo = "Foo v"
    ∧ headerHtml addonFoo = "<div><strong>Foo</strong></div>" := by
  refine ⟨by decide, by decide, ?_, ?_⟩
  · exact (c10_dangling_version_suffix addonFoo (by decide) (by decide)).1
  · exact (c10_dangling_version_suffix addonFoo (by decide) (by decide)).2

/-- C2 (code bug): the claim matches the documented design, but the code
crashes on it.  With a positive maximum age and a collected record carrying
a Z-suffixed timestamp (the format the AMO API serves and the format the Z
replacement at source line 187 explicitly rewrites), fromisoformat returns
an offset-aware datetime, the utcnow cutoff of line 196 is naive, and the
comparison at line 200 raises an uncaught TypeError: the filter aborts
instead of retaining any set at all, and the run crashes with nothing
written. -/
theorem c2_aware_timestamp_type_error :
    _get_created_dt parserAwareUTC parserNone addonAware
      = some ⟨1704067200, true⟩
    ∧ recencyFilter parserAwareUTC parserNone 1704100000 (some 1) [addonAware]
      = FilterResult.typeError
    ∧ runWithSearchUrl parserAwareUTC parserNone 1704100000 none (some 1) none
        [PageResp.response 200 [addonAware] false]
      = RunResult.typeError := by
  refine ⟨by decide, by decide, by decide⟩

/-- C3: when the maximum age is absent, zero, or (through the command-line
and environment plumbing of _env_or_arg, which normalizes non-positive
values to None) negative, the recency filter is the identity on the
collected records. -/
theorem c3_nonpositive_max_days_identity (pIso pStrp : String → Option PyDatetime)
    (now : Int) (argMax envMax : Int) (recs : List Addon)
    (harg : argMax ≤ 0) (henv : envMax ≤ 0) :
    recencyFilter pIso pStrp now (envOrArgMaxDays argMax envMax) recs
      = FilterResult.ok recs
    ∧ recencyFilter pIso pStrp now none recs = FilterResult.ok recs
    ∧ recencyFilter pIso pStrp now (some 0) recs = FilterResult.ok recs := by
  have hnorm : envOrArgMaxDays argMax envMax = none := by
    unfold envOrArgMaxDays
    simp only []
    split_ifs with h1 h2 h3 <;> first | rfl | omega
  refine ⟨?_, ?_, ?_⟩
  · rw [hnorm]
    simp [recencyFilter, truthyInt]
  · simp [recencyFilter, truthyInt]
  · simp [recencyFilter, truthyInt]

/-- C3 witness: evaluation with a negative command-line value, a zero
environment value, and one record. -/
theorem c3_nonpositive_max_days_identity_witness :
    ((-3 : Int) ≤ 0) ∧ ((0 : Int) ≤ 0)
    ∧ recencyFilter parserNone parserNone 0 (envOrArgMaxDays (-3) 0) [addonEmpty]
      = FilterResult.ok [addonEmpty] :=
  ⟨by norm_num, by norm_num,
    (c3_nonpositive_max_days_identity parserNone parserNone 0 (-3) 0 [addonEmpty]
      (by norm_num) (by norm_num)).1⟩

/-- C1 counterexample: one page of two records with no next link and a
requested maximum of one item.  The claim predicts min(N*P, M) = 1 record;
the loop appends the whole page before testing the cap and accumulates two
records. -/
theorem c1_counterexample :
    (selfDrivenFetch 2 (some 1) []
        [PageResp.response 200 [addonEmpty, addonFoo] false]).length = 2
    ∧ (selfDrivenFetch 2 (some 1) []
        [PageResp.response 200 [addonEmpty, addonFoo] false]).length ≠ min (1 * 2) 1 := by
  refine ⟨by decide, by decide⟩

/-- C1 (amended) helper: over full 200-status pages of exactly the page
size and with no next link, the self-driven loop started below the cap
stops at the first page that reaches the cap, accumulating whole pages. -/
theorem selfDrivenFetch_full_pages (P M : Nat) (hP : 0 < P) (hM : 0 < M)
    (pages : List (List Addon)) (acc : List Addon)
    (hfull : ∀ pg ∈ pages, pg.length = P) (hacc : acc.length < M) :
    (selfDrivenFetch (P : Int) (some (M : Int)) acc
        (pages.map (fun r => PageResp.response 200 r false))).length
      = acc.length + min pages.length ((M - acc.length + P - 1) / P) * P := by
  induction pages generalizing acc with
  | nil =>
    simp [selfDrivenFetch]
  | cons pg rest ih =>
    have hpg : pg.length = P := hfull pg (List.mem_cons_self pg rest)
    have hrest : ∀ q ∈ rest, q.length = P := fun q hq => hfull q (List.mem_cons_of_mem pg hq)
    simp only [List.map_cons, selfDrivenFetch]
    rw [if_neg (by omega), if_neg (by omega)]
    by_cases hcap : acc.length + P ≥ M
    · have hmax : maxReached (some (M : Int)) (acc ++ pg).length = true := by
        simp only [maxReached, List.length_append, hpg, Bool.and_eq_true, decide_eq_true_eq]
        constructor
        · omega
        · push_cast
          omega
      rw [if_pos hmax]
      have hceil : (M - acc.length + P - 1) / P = 1 := by
        have hlow : 1 * P ≤ M - acc.length + P - 1 := by omega
        have hhigh : M - acc.length + P - 1 < (1 + 1) * P := by omega
        exact Nat.div_eq_of_lt_le hlow hhigh
      rw [hceil]
      simp only [List.length_append, hpg]
      have : min (rest.length + 1) 1 = 1 := by omega
      rw [List.length_cons, this]
      omega
    · have hmax : maxReached (some (M : Int)) (acc ++ pg).length = false := by
        simp only [maxReached, List.length_append, hpg, Bool.and_eq_false_iff]
        right
        simp only [decide_eq_false_iff_not]
        push_cast
        omega
      have hlen : (acc ++ pg).length = acc.length + P := by
        simp [List.length_append, hpg]
      rw [hmax]
      rw [if_neg (by decide)]
      rw [if_neg (by decide)]
      rw [hpg]
      rw [if_neg (by omega)]
      rw [ih (acc ++ pg) hrest (by omega)]
      rw [hlen]
      have hstep : (M - acc.length + P - 1) / P = (M - (acc.length + P) + P - 1) / P + 1 := by
        have e1 : M - acc.length + P - 1 = (M - acc.length - 1) + P := by omega
        have e2 : M - (acc.length + P) + P - 1 = M - acc.length - 1 := by omega
        rw [e1, e2, Nat.add_div_right _ hP]
      rw [hstep]
      rw [List.length_cons]
      rw [Nat.succ_min_succ]
      rw [Nat.succ_mul]
      ring
/-- C1 (amended): in self-driven mode against a server exposing N pages of
exactly the requested page size P with no next link, and a requested
maximum item count M > 0, the fetch loop terminates (the embedding is a
total function of the finite page list) and accumulates whole pages up to
the first page that reaches M: exactly min(N, ceil(M / P)) * P records,
which is at least min(N * P, M) but can exceed M by up to P - 1. -/
theorem c1_pagination_count (P M : Nat) (pages : List (List Addon))
    (hP : 0 < P) (hM : 0 < M) (hfull : ∀ pg ∈ pages, pg.length = P) :
    (selfDrivenFetch (P : Int) (some (M : Int)) []
        (pages.map (fun r => PageResp.response 200 r false))).length
      = min pages.length ((M + P - 1) / P) * P := by
  have h := selfDrivenFetch_full_pages P M hP hM pages [] hfull (by simpa using hM)
  simpa using h

/-- C1 witness: two full pages of size two with a requested maximum of
three items; the loop accumulates four records. -/
theorem c1_pagination_count_witness :
    (0 < 2) ∧ (0 < 3)
    ∧ (∀ pg ∈ [[addonEmpty, addonFoo], [addonEmpty, addonFoo]], List.length pg = 2)
    ∧ (selfDrivenFetch ((2 : Nat) : Int) (some ((3 : Nat) : Int)) []
        ([[addonEmpty, addonFoo], [addonEmpty, addonFoo]].map
          (fun r => PageResp.response 200 r false))).length
      = min (List.length [[addonEmpty, addonFoo], [addonEmpty, addonFoo]]) ((3 + 2 - 1) / 2) * 2 := by
  refine ⟨by decide, by decide, by decide, ?_⟩
  exact c1_pagination_count 2 3 [[addonEmpty, addonFoo], [addonEmpty, addonFoo]]
    (by decide) (by decide) (by decide)

/-- Helper for C7: the next-link loop run against good pages followed by an
error response consumes exactly the good pages and stops at the error with
everything collected so far. -/
theorem fetchFollowing_stops_at_error (m : Option Int) (e : PageResp)
    (he : isErrorResp e = true) :
    ∀ (good : List PageResp) (acc : List Addon) (rest : List PageResp),
      good.all okPageNext = true → noCapHit m acc.length good = true →
      fetchFollowing m acc (good ++ e :: rest) = acc ++ flattenResults good := by
  intro good
  induction good with
  | nil =>
    intro acc rest _ _
    cases e with
    | transportError => simp [fetchFollowing, flattenResults]
    | response status results next =>
      simp only [isErrorResp, decide_eq_true_eq] at he
      simp [fetchFollowing, flattenResults, he]
  | cons p ps ih =>
    intro acc rest hall hcap
    cases p with
    | transportError => simp [List.all_cons, okPageNext] at hall
    | response status results next =>
      simp only [List.all_cons, okPageNext, Bool.and_eq_true, decide_eq_true_eq] at hall
      obtain ⟨⟨⟨hs, hr⟩, hnx⟩, hps⟩ := hall
      subst hs
      simp only [noCapHit, resultsOf, Bool.and_eq_true, Bool.not_eq_eq_eq_not,
        Bool.not_true] at hcap
      obtain ⟨hm, hcap2⟩ := hcap
      simp only [List.cons_append, fetchFollowing]
      rw [if_neg (by omega)]
      rw [if_neg hr]
      rw [if_neg (by rw [List.length_append]; rw [hm]; simp)]
      rw [hnx, if_pos rfl]
      simp only [List.append_eq]
      rw [ih (acc ++ results) rest hps (by rw [List.length_append]; exact hcap2)]
      simp [flattenResults, resultsOf, List.append_assoc]

/-- C8: for the type filter theme the API request carries the type token
statictheme and the output file is amo_latest_themes.xml. -/
theorem c8_theme_type_mapping :
    apiAndLabel ("theme") = ("statictheme", "theme")
    ∧ buildSearchUrl 50 1 (some ((apiAndLabel ("theme")).1)) none
      = "https://addons.mozilla.org/api/v5/addons/search/?sort=updated&page_size=50&page=1&type=statictheme"
    ∧ outputFiles (some ("theme")) = ["amo_latest_themes.xml"] := by
  refine ⟨by decide, by decide, by decide⟩

/-- Round trip of the character codepoint through Char.ofNat for a valid
codepoint. -/
theorem charToNat_ofNat (n : Nat) (h : Nat.isValidChar n) : (Char.ofNat n).toNat = n := by
  simp only [Char.ofNat, dif_pos h]
  unfold Char.ofNatAux
  rfl

/-- Every character of a sanitized label is a lowercase alphanumeric, an
underscore, or a hyphen. -/
theorem sanitizeLabel_chars (s : String) :
    ∀ c ∈ (sanitizeLabel s).data, lowerAllowedChar c = true := by
  intro c hc
  have hdata : (sanitizeLabel s).data
      = (s.data.filter (fun c => pyIsAlnum c || c == '_' || c == '-')).map pyLowerChar := rfl
  rw [hdata] at hc
  rcases List.mem_map.mp hc with ⟨c0, hc0, rfl⟩
  have hpred := (List.mem_filter.mp hc0).2
  simp only [Bool.or_eq_true, beq_iff_eq] at hpred
  rcases hpred with (halnum | hund) | hhyp
  · simp only [pyIsAlnum, decide_eq_true_eq] at halnum
    rcases halnum with hdig | hupp | hlow
    · have heq : pyLowerChar c0 = c0 := by
        unfold pyLowerChar
        rw [if_neg (by omega)]
      rw [heq]
      simp only [lowerAllowedChar, pyIsAlnum, Bool.or_eq_true, Bool.and_eq_true,
        decide_eq_true_eq]
      exact Or.inl (Or.inl ⟨Or.inl hdig, by omega⟩)
    · have heq : pyLowerChar c0 = Char.ofNat (c0.toNat + 32) := by
        unfold pyLowerChar
        rw [if_pos hupp]
      have htn : (Char.ofNat (c0.toNat + 32)).toNat = c0.toNat + 32 :=
        charToNat_ofNat _ (Or.inl (by omega))
      rw [heq]
      simp only [lowerAllowedChar, pyIsAlnum, Bool.or_eq_true, Bool.and_eq_true,
        decide_eq_true_eq, htn]
      exact Or.inl (Or.inl ⟨by omega, by omega⟩)
    · have heq : pyLowerChar c0 = c0 := by
        unfold pyLowerChar
        rw [if_neg (by omega)]
      rw [heq]
      simp only [lowerAllowedChar, pyIsAlnum, Bool.or_eq_true, Bool.and_eq_true,
        decide_eq_true_eq]
      exact Or.inl (Or.inl ⟨Or.inr (Or.inr hlow), by omega⟩)
  · subst hund
    decide
  · subst hhyp
    decide

/-- C4: per run, the combined file amo_latest_addons.xml is written exactly
when no (truthy) type filter was supplied, the type-specific file
amo_latest_ label s.xml exactly when one was, so exactly one output file is
produced; and the label is sanitized to lowercase alphanumerics,
underscores and hyphens. -/
theorem c4_output_file_policy (t : Option String) :
    (truthyStr t = false → outputFiles t = ["amo_latest_addons.xml"])
    ∧ (∀ s : String, t = some s → s ≠ "" → outputFiles t = [typeSpecificFileName s])
    ∧ (outputFiles t).length = 1
    ∧ ∀ s : String, ∀ c ∈ (sanitizeLabel s).data, lowerAllowedChar c = true := by
  refine ⟨?_, ?_, ?_, fun s => sanitizeLabel_chars s⟩
  · intro hf
    cases t with
    | none => rfl
    | some s =>
      simp only [truthyStr, decide_eq_false_iff_not, not_not] at hf
      simp [outputFiles, truthyStr, hf]
  · intro s hts hs
    subst hts
    simp [outputFiles, truthyStr, hs]
  · cases t with
    | none => rfl
    | some s =>
      by_cases hs : s = "" <;> simp [outputFiles, truthyStr, hs]

/-- C4 witness: evaluation at the type filter theme, at the absent filter,
and at one sanitized character. -/
theorem c4_output_file_policy_witness :
    outputFiles (some ("theme")) = [typeSpecificFileName ("theme")]
    ∧ outputFiles none = ["amo_latest_addons.xml"]
    ∧ lowerAllowedChar 'e' = true :=
  ⟨(c4_output_file_policy (some ("theme"))).2.1 ("theme") rfl (by decide),
   (c4_output_file_policy none).1 (by decide),
   (c4_output_file_policy none).2.2.2 ("Theme") 'e' (by decide)⟩

/-- Helper for C7: the self-driven loop run against full 200-status pages
of exactly the page size with no next link, followed by an error response,
consumes exactly those pages and stops at the error with everything
collected so far. -/
theorem selfDrivenFetch_stops_at_error (page_size : Int) (hpos : 0 < page_size)
    (m : Option Int) (e : PageResp) (he : isErrorResp e = true) :
    ∀ (good : List PageResp) (acc : List Addon) (rest : List PageResp),
      good.all (okFullPageNoNext page_size) = true → noCapHit m acc.length good = true →
      selfDrivenFetch page_size m acc (good ++ e :: rest) = acc ++ flattenResults good := by
  intro good
  induction good with
  | nil =>
    intro acc rest _ _
    cases e with
    | transportError => simp [selfDrivenFetch, flattenResults]
    | response status results next =>
      simp only [isErrorResp, decide_eq_true_eq] at he
      simp [selfDrivenFetch, flattenResults, he]
  | cons p ps ih =>
    intro acc rest hall hcap
    cases p with
    | transportError => simp [List.all_cons, okFullPageNoNext] at hall
    | response status results next =>
      simp only [List.all_cons, okFullPageNoNext, Bool.and_eq_true, decide_eq_true_eq,
        Bool.not_eq_true'] at hall
      obtain ⟨⟨⟨hs, hlenp⟩, hnx⟩, hrest⟩ := hall
      subst hs
      simp only [noCapHit, resultsOf, Bool.and_eq_true, Bool.not_eq_eq_eq_not,
        Bool.not_true] at hcap
      obtain ⟨hm, hcap2⟩ := hcap
      simp only [List.cons_append, selfDrivenFetch]
      rw [if_neg (by omega)]
      rw [if_neg (by omega)]
      rw [if_neg (by rw [List.length_append]; rw [hm]; simp)]
      rw [hnx]
      rw [if_neg (by decide)]
      rw [if_neg (by omega)]
      simp only [List.append_eq]
      rw [ih (acc ++ results) rest hrest (by rw [List.length_append]; exact hcap2)]
      simp [flattenResults, resultsOf, List.append_assoc]

/-- C7 counterexample: a run in which the transport layer does fail and a
record was collected, yet the pipeline does not write a feed from it: with
a positive maximum age, the collected Z-timestamped record makes the
recency filter raise the uncaught aware-versus-naive TypeError and the run
crashes before any render or write. -/
theorem c7_counterexample :
    isErrorResp PageResp.transportError = true
    ∧ fetchFollowing none []
        [PageResp.response 200 [addonAware] true, PageResp.transportError]
      = [addonAware]
    ∧ runWithSearchUrl parserAwareUTC parserNone 1704100000 none (some 1) none
        [PageResp.response 200 [addonAware] true, PageResp.transportError]
      = RunResult.typeError := by
  refine ⟨by decide, by decide, by decide⟩

/-- C7 (amended): in either mode, the next-link loop of an explicit
search-URL run or the self-driven loop, when the server answers some good
pages and then fails with a transport error or a non-success status, the
fetch loop stops without raising, holding exactly the records collected so
far (possibly none); and provided the recency-filter stage does not abort
(its result is ok, as always holds when no maximum age is set or when no
collected record resolves to an offset-aware timestamp), the run proceeds
to filter, render, and write a feed from those records.  When the filter
does abort on an aware timestamp, the run crashes and writes nothing, as
the counterexample shows. -/
theorem c7_error_degrades_gracefully (pIso pStrp : String → Option PyDatetime)
    (now : Int) (max_items max_days : Option Int) (amo_type : Option String)
    (goodF : List PageResp) (eF : PageResp) (restF : List PageResp) (lF : List Addon)
    (heF : isErrorResp eF = true) (hgoodF : goodF.all okPageNext = true)
    (hcapF : noCapHit max_items 0 goodF = true)
    (hfltF : recencyFilter pIso pStrp now max_days (flattenResults goodF)
      = FilterResult.ok lF)
    (page_size : Int) (hpos : 0 < page_size)
    (goodS : List PageResp) (eS : PageResp) (restS : List PageResp) (lS : List Addon)
    (heS : isErrorResp eS = true)
    (hgoodS : goodS.all (okFullPageNoNext page_size) = true)
    (hcapS : noCapHit max_items 0 goodS = true)
    (hfltS : recencyFilter pIso pStrp now max_days (flattenResults goodS)
      = FilterResult.ok lS) :
    fetchFollowing max_items [] (goodF ++ eF :: restF) = flattenResults goodF
    ∧ runWithSearchUrl pIso pStrp now max_items max_days amo_type (goodF ++ eF :: restF)
      = RunResult.wrote ⟨renderItems lF, outputFiles amo_type⟩
    ∧ selfDrivenFetch page_size max_items [] (goodS ++ eS :: restS) = flattenResults goodS
    ∧ runSelfDriven pIso pStrp now page_size max_items max_days amo_type
        (goodS ++ eS :: restS)
      = RunResult.wrote ⟨renderItems lS, outputFiles amo_type⟩ := by
  have hF := fetchFollowing_stops_at_error max_items eF heF goodF [] restF hgoodF
    (by simpa using hcapF)
  rw [List.nil_append] at hF
  have hS := selfDrivenFetch_stops_at_error page_size hpos max_items eS heS goodS [] restS
    hgoodS (by simpa using hcapS)
  rw [List.nil_append] at hS
  refine ⟨hF, ?_, hS, ?_⟩
  · unfold runWithSearchUrl
    rw [hF, hfltF]
  · unfold runSelfDriven
    rw [hS, hfltS]

/-- C7 witness: in each mode, one good page of one record followed by a
transport failure, with no maximum age so the filter passes everything
through. -/
theorem c7_error_degrades_gracefully_witness :
    isErrorResp PageResp.transportError = true
    ∧ fetchFollowing none []
        ([PageResp.response 200 [addonFoo] true] ++ PageResp.transportError :: [])
      = flattenResults [PageResp.response 200 [addonFoo] true]
    ∧ runWithSearchUrl parserNone parserNone 0 none none none
        ([PageResp.response 200 [addonFoo] true] ++ PageResp.transportError :: [])
      = RunResult.wrote ⟨renderItems (flattenResults [PageResp.response 200 [addonFoo] true]),
          outputFiles none⟩
    ∧ selfDrivenFetch 1 none []
        ([PageResp.response 200 [addonFoo] false] ++ PageResp.transportError :: [])
      = flattenResults [PageResp.response 200 [addonFoo] false]
    ∧ runSelfDriven parserNone parserNone 0 1 none none none
        ([PageResp.response 200 [addonFoo] false] ++ PageResp.transportError :: [])
      = RunResult.wrote ⟨renderItems (flattenResults [PageResp.response 200 [addonFoo] false]),
          outputFiles none⟩ := by
  refine ⟨by decide, ?_⟩
  exact c7_error_degrades_gracefully parserNone parserNone 0 none none none
    [PageResp.response 200 [addonFoo] true] PageResp.transportError []
    (flattenResults [PageResp.response 200 [addonFoo] true])
    (by decide) (by decide) (by decide) (by decide)
    1 (by decide)
    [PageResp.response 200 [addonFoo] false] PageResp.transportError []
    (flattenResults [PageResp.response 200 [addonFoo] false])
    (by decide) (by decide) (by decide) (by decide)

end Amo
